import Mathlib

/-!
Verification of the codimension project-management layer
(`src/utils/fsenv.py`, `src/utils/project.py`).

Python strings are modelled as `List Char` (named `Str`), Python lists as
Lean lists, Python sets as `Finset`.  `os.path.sep` is `'/'`.  Filesystem
and JSON primitives (`os.listdir`, `os.path.realpath`, `json.load`, ...)
are oracles collected in a `World` structure; the functions under
verification are translated line by line from the Python source.
-/

namespace Codimension

/-- Python strings, modelled as their character lists. -/
abbrev Str := List Char

/-- Test `path.endswith(os.path.sep)` with `os.path.sep = '/'`. -/
def endsSep (p : Str) : Bool := p.getLast? == some '/'

/-- The normalisation `if not path.endswith(os.path.sep): path += os.path.sep`
used by `addTopLevelDir` / `removeTopLevelDir` / `isProjectDir`. -/
def ensureSep (p : Str) : Str := if endsSep p then p else p ++ ['/']

/-! ### FileSystemEnvironment list operations (`src/utils/fsenv.py`)

The recent-files list and the top-level-dirs list live in
`self.__props['recent']` and `self.__props['topleveldirs']`; the methods
below are their pure list transformations (`self.save()` only writes to
disk and does not touch the lists). -/

/-- `FileSystemEnvironment.addRecentFile` (fsenv.py lines 100-111):
returns the new `recent` list and the method's boolean result.
`self.__limit` is the `limit` argument. -/
def addRecentFile (limit : Nat) (l : List Str) (p : Str) : List Str × Bool :=
  if p ∈ l then
    (p :: l.erase p, false)
  else
    let l1 := p :: l
    if l1.length > limit then (l1.take limit, true) else (l1, true)

/-- `FileSystemEnvironment.removeRecentFile` (fsenv.py lines 113-117). -/
def removeRecentFile (l : List Str) (p : Str) : List Str :=
  if p ∈ l then l.erase p else l

/-- The `recentFiles` property setter (fsenv.py lines 95-98): a raw
assignment `self.__props['recent'] = files`. -/
def setRecentFiles (_l : List Str) (files : List Str) : List Str := files

/-- `FileSystemEnvironment.addTopLevelDir` (fsenv.py lines 139-145). -/
def addTopLevelDir (l : List Str) (p : Str) : List Str :=
  let q := ensureSep p
  if q ∈ l then l else l ++ [q]

/-- `FileSystemEnvironment.removeTopLevelDir` (fsenv.py lines 147-153). -/
def removeTopLevelDir (l : List Str) (p : Str) : List Str :=
  let q := ensureSep p
  if q ∈ l then l.erase q else l

/-- The `topLevelDirs` property setter (fsenv.py lines 134-137): a raw
assignment `self.__props['topleveldirs'] = newDirs`. -/
def setTopLevelDirs (_l : List Str) (newDirs : List Str) : List Str := newDirs

/-- Qt signals emitted by `CodimensionProject` that the claims mention. -/
inductive Sig
  | recentFilesChanged
deriving DecidableEq

/-- `CodimensionProject.addRecentFile` (project.py lines 443-448): calls the
environment method and emits `recentFilesChanged` iff it returned `True`.
The result is (new list, boolean result, emitted signals). -/
def projAddRecentFile (limit : Nat) (l : List Str) (p : Str) :
    (List Str × Bool) × List Sig :=
  let r := addRecentFile limit l p
  (r, if r.2 then [Sig.recentFilesChanged] else [])

/-! ### Project data model and filesystem oracles -/

/-- The project properties dictionary (`__DEFAULT_PROJECT_PROPS`,
project.py lines 43-52): the code reads only `uuid` and `importdirs`; the
remaining string-valued keys are kept as an association list. -/
structure Props where
  uuid : Str
  importdirs : List Str
  other : List (Str × Str)
deriving DecidableEq

/-- Default project properties: every field empty (project.py 43-52). -/
def defaultProjectProps : Props := ⟨[], [], []⟩

/-- The file-system environment properties (`__DEFAULT_FS_PROPS`,
fsenv.py lines 32-36). -/
structure FsProps where
  tabs : List Str
  recent : List Str
  fsbrowserexpandeddirs : List Str
  topleveldirs : List Str
deriving DecidableEq

/-- Default file-system environment properties (fsenv.py 32-36). -/
def defaultFsProps : FsProps := ⟨[], [], [], []⟩

/-- Oracles for the external collaborators: the OS filesystem calls
(`os.listdir`, `os.path.realpath`, `os.path.isdir`, `os.path.islink`,
`os.path.exists`, file reading), the JSON codec, `uuid.uuid1`, the
settings directory, and the per-project stores whose code is not under
`src/` (debugger environment, search environment, run-parameters cache,
the legacy top-level-dirs / expanded-dirs loaders).  `scanFuel` bounds the
depth of the recursive directory scan (the real filesystem is finite). -/
structure World where
  realpath : Str → Str
  pathExists : Str → Bool
  isdir : Str → Bool
  islink : Str → Bool
  listdir : Str → List Str
  readFile : Str → Str
  parseProps : Str → Option Props
  parseFsProps : Str → Option FsProps
  newUuid : Str
  settingsDir : Str
  debugSetup : Str → Str
  searchSetup : Str → Str
  loadTopLevel : Str → List Str
  loadExpanded : Str → List Str
  runParamsLoad : Str → Str
  scanFuel : Nat

/-- Strip trailing `'/'` characters (the `head.rstrip('/')` step of
`posixpath.dirname`). -/
def rstripSep (p : Str) : Str := (p.reverse.dropWhile (· == '/')).reverse

/-- `os.path.dirname` for POSIX paths: split at the last separator, keep
the head, and strip its trailing separators unless it is all separators. -/
def dirname (p : Str) : Str :=
  match p.reverse.findIdx? (· == '/') with
  | none => []
  | some j =>
    let head := p.take (p.length - j)
    if head.all (· == '/') then head else rstripSep head

/-- `CodimensionProject.getProjectDir` (project.py lines 427-431) for a
loaded project: `dirname(realpath(fileName)) + sep`. -/
def getProjectDirStr (w : World) (fileName : Str) : Str :=
  dirname (w.realpath fileName) ++ ['/']

/-- `CodimensionProject.isProjectDir` (project.py lines 386-393):
`False` when no project is loaded (empty file name), otherwise the
realpath of the argument, separator-normalized, must start with the
project directory. -/
def isProjectDir (w : World) (fileName : Str) (path : Str) : Bool :=
  if fileName = [] then false
  else (getProjectDirStr w fileName).isPrefixOf (ensureSep (w.realpath path))

/-- `CodimensionProject.shouldExclude` (project.py lines 95-100): the
compiled exclude-filter regexes are abstracted as boolean predicates on
the entry name. -/
def shouldExclude (filters : List (Str → Bool)) (name : Str) : Bool :=
  filters.any (fun f => f name)

/-- The symlink test of `CodimensionProject.__scanDir` (project.py lines
370-377): a symlink is skipped when its target (for directories) or the
target's containing directory (for files) belongs to the project tree. -/
def symSkip (w : World) (fileName : Str) (cand : Str) : Bool :=
  w.islink cand &&
    (let r := w.realpath cand
     if w.isdir r then isProjectDir w fileName r
     else isProjectDir w fileName (dirname r))

/-- The body of the `for item in os.listdir(path)` loop of
`CodimensionProject.__scanDir` (project.py lines 360-384), threading the
`self.filesList` accumulator; `recurse` is the recursive call made for
subdirectories. -/
def scanStep (w : World) (filters : List (Str → Bool)) (fileName : Str)
    (recurse : Str → Finset Str → Finset Str) (path : Str) :
    List Str → Finset Str → Finset Str
  | [], acc => acc
  | item :: rest, acc =>
    if shouldExclude filters item then
      scanStep w filters fileName recurse path rest acc
    else if symSkip w fileName (path ++ item) then
      scanStep w filters fileName recurse path rest acc
    else if w.isdir (path ++ item) then
      scanStep w filters fileName recurse path rest
        (recurse (path ++ item ++ ['/']) (insert (path ++ item ++ ['/']) acc))
    else
      scanStep w filters fileName recurse path rest (insert (path ++ item) acc)

/-- `CodimensionProject.__scanDir` (project.py lines 360-384), with fuel
bounding the recursion depth. -/
def scanDir (w : World) (filters : List (Str → Bool)) (fileName : Str) :
    Nat → Str → Finset Str → Finset Str
  | 0, _, acc => acc
  | fuel + 1, path, acc =>
    scanStep w filters fileName
      (fun p a => scanDir w filters fileName fuel p a) path (w.listdir path) acc

/-- `CodimensionProject.__generateFilesList` (project.py lines 352-358):
start from the set holding the project directory and scan it. -/
def generateFilesList (w : World) (filters : List (Str → Bool))
    (fileName : Str) : Finset Str :=
  let pd := getProjectDirStr w fileName
  scanDir w filters fileName w.scanFuel pd {pd}

/-! ### FileSystemEnvironment persistence and project loading -/

/-- The mutable state of a `FileSystemEnvironment` instance: the property
dictionary and the bound file name (`self.__fileName`, `None` before
`setup`). -/
structure FsEnv where
  props : FsProps
  fsFileName : Option Str
deriving DecidableEq

/-- `FileSystemEnvironment.reset` (fsenv.py lines 47-50). -/
def fsReset : FsEnv := ⟨defaultFsProps, none⟩

/-- Modelled from the spec: `loadJSON`, the JSON load utility from
`utils/fileutils.py`, which is not under `src/`.  The spec describes it as
"read-with-default": a missing or corrupt (unparseable) file loads as the
given default, with the error reported via logging. -/
def loadJSON (w : World) (fileName : Str) (default : FsProps) : FsProps :=
  if w.pathExists fileName then
    match w.parseFsProps (w.readFile fileName) with
    | some v => v
    | none => default
  else default

/-- `FileSystemEnvironment.load` (fsenv.py lines 68-73). -/
def fsLoad (w : World) (e : FsEnv) : FsEnv :=
  match e.fsFileName with
  | none => e
  | some fn => { e with props := loadJSON w fn defaultFsProps }

/-- `FileSystemEnvironment.setup` (fsenv.py lines 52-66): realpath and
separator-normalize the directory, raise unless it is a directory, bind
`fsenv.json` inside it, and load it when it exists (`self.save()` only
touches the disk). -/
def fsSetup (w : World) (e : FsEnv) (dirName : Str) : Except Str FsEnv :=
  let d := ensureSep (w.realpath dirName)
  if w.isdir d = false then
    Except.error ("Directory name is expected for the file system environment. The given ".data
      ++ d ++ " is not.".data)
  else
    let fn := d ++ "fsenv.json".data
    let e1 : FsEnv := { e with fsFileName := some fn }
    Except.ok (if w.pathExists fn then fsLoad w e1 else e1)

/-- The state of a `CodimensionProject` object that the claims mention.
`debugEnv`, `searchEnv` and `runParams` stand for the debugger
environment, search environment and run-parameters stores, whose classes
are not under `src/`; they are modelled from the spec as opaque
per-project stores cleared on reset and filled from the user project
directory on setup. -/
structure PState where
  fileName : Str
  userProjectDir : Str
  filesList : Finset Str
  props : Props
  runParams : Str
  fsenv : FsEnv
  debugEnv : Str
  searchEnv : Str
deriving DecidableEq

/-- `CodimensionProject.__resetValues` (project.py lines 102-127): every
store back to its default, project unloaded. -/
def resetValues (_st : PState) : PState :=
  { fileName := [], userProjectDir := [], filesList := ∅,
    props := defaultProjectProps, runParams := [],
    fsenv := fsReset, debugEnv := [], searchEnv := [] }

/-- `CodimensionProject.loadProject` (project.py lines 242-297), returning
the raised exception (if any) together with the state of the object after
the call — a raise after a mutation would leave the mutation visible, as
in Python.  Disk-only effects (`os.makedirs`, `__createProjectFile`,
`saveProject`, the watcher, signal emission, `Settings().addRecentProject`)
are not part of the object state. -/
def loadProject (w : World) (filters : List (Str → Bool)) (st : PState)
    (f : Str) : Except Str Unit × PState :=
  let path := w.realpath f
  if w.pathExists path = false then
    (Except.error ("Cannot open project file ".data ++ f), st)
  else if ".cdm3".data.isSuffixOf path = false then
    (Except.error "Unexpected project file extension. Expected: .cdm3".data, st)
  else
    match w.parseProps (w.readFile path) with
    | none => (Except.error ("Bad project file ".data ++ f), st)
    | some props0 =>
      let st1 := resetValues st
      let props1 :=
        if props0.uuid = [] then { props0 with uuid := w.newUuid } else props0
      let upd := w.settingsDir ++ props1.uuid ++ ['/']
      let st2 := { st1 with
        fileName := path
        props := props1
        userProjectDir := upd
        debugEnv := w.debugSetup upd
        searchEnv := w.searchSetup upd }
      match fsSetup w st2.fsenv upd with
      | Except.error e => (Except.error e, st2)
      | Except.ok fs1 =>
        let fs2 := { fs1 with
          props := { fs1.props with
            topleveldirs := w.loadTopLevel upd
            fsbrowserexpandeddirs := w.loadExpanded upd } }
        let st3 := { st2 with fsenv := fs2 }
        let st4 :=
          { st3 with filesList := generateFilesList w filters st3.fileName }
        let st5 :=
          if w.pathExists (upd ++ "runparamscache".data) then
            { st4 with runParams := w.runParamsLoad (upd ++ "runparamscache".data) }
          else st4
        (Except.ok (), st5)

/-- The empty dictionary `{}` that `getProjectProperties` returns when the
project file exists but cannot be parsed. -/
def emptyProps : Props := ⟨[], [], []⟩

/-- `getProjectProperties` (project.py lines 451-464): raises when the file
is missing, logs and returns `{}` when it exists but cannot be parsed. -/
def getProjectProperties (w : World) (projectFile : Str) : Except Str Props :=
  let path := w.realpath projectFile
  if w.pathExists path = false then
    Except.error ("Cannot find project file ".data ++ projectFile)
  else
    match w.parseProps (w.readFile path) with
    | some ps => Except.ok ps
    | none => Except.ok emptyProps

/-- Listing oracle of the concrete witness world: the root `"/r/"` holds a
single entry `"a"`; everything else is empty. -/
def wit0listdir : Str → List Str :=
  fun p => if p = ['/', 'r', '/'] then [['a']] else []

/-- A concrete witness world: no symlinks, no directories besides the root,
a single file `"a"` under `"/r/"`, every path exists, nothing parses. -/
def wit0 : World where
  realpath := fun p => p
  pathExists := fun _ => true
  isdir := fun _ => false
  islink := fun _ => false
  listdir := wit0listdir
  readFile := fun _ => []
  parseProps := fun _ => none
  parseFsProps := fun _ => none
  newUuid := []
  settingsDir := []
  debugSetup := fun _ => []
  searchSetup := fun _ => []
  loadTopLevel := fun _ => []
  loadExpanded := fun _ => []
  runParamsLoad := fun _ => []
  scanFuel := 1

/-- A world in which no path exists, for exercising the missing-file
branches. -/
def witNoFile : World := { wit0 with pathExists := fun _ => false }

/-- A freshly constructed project state (no project loaded). -/
def pstate0 : PState :=
  { fileName := [], userProjectDir := [], filesList := ∅,
    props := defaultProjectProps, runParams := [],
    fsenv := fsReset, debugEnv := [], searchEnv := [] }

/-! ### Watcher change tokens (`CodimensionProject.onFSChanged`) -/

/-- One iteration of the loop in `CodimensionProject.onFSChanged`
(project.py lines 311-318): `'+'`-prefixed tokens add `item[1:]` to the
file list, all other tokens remove `item[1:]`; a failing `set.remove` is
swallowed by the bare `except`, which is exactly `Finset.erase`. -/
def onFSChangedStep (fl : Finset Str) (item : Str) : Finset Str :=
  if item.take 1 = ['+'] then insert (item.drop 1) fl
  else fl.erase (item.drop 1)

/-- `CodimensionProject.onFSChanged` (project.py lines 309-320): the loop
over the watcher's change tokens, patching the file-list set. -/
def onFSChanged (fl : Finset Str) (items : List Str) : Finset Str :=
  items.foldl onFSChangedStep fl

/-! ### Helper lemmas -/

theorem endsSep_append_sep (p : Str) : endsSep (p ++ ['/']) = true := by
  simp [endsSep, List.getLast?_concat]

theorem endsSep_ensureSep (p : Str) : endsSep (ensureSep p) = true := by
  unfold ensureSep
  by_cases h : endsSep p = true
  · simp [h]
  · simp [h, endsSep_append_sep]

theorem ensureSep_idem (p : Str) : ensureSep (ensureSep p) = ensureSep p := by
  have h := endsSep_ensureSep p
  unfold ensureSep
  by_cases hp : endsSep p = true
  · simp [hp]
  · simp [hp, endsSep_append_sep]

theorem addRecentFile_length_mem {limit : Nat} {l : List Str} {p : Str}
    (hp : p ∈ l) : (addRecentFile limit l p).1.length = l.length := by
  have h1 : (l.erase p).length = l.length - 1 := List.length_erase_of_mem hp
  have h2 : 0 < l.length := List.length_pos_of_mem hp
  simp [addRecentFile, hp, h1]
  omega

/-! ### Lemmas about the recursive directory scan -/

theorem scanStep_acc_subset (w : World) (filters : List (Str → Bool))
    (fileName : Str) (recurse : Str → Finset Str → Finset Str)
    (Hsub : ∀ p a, a ⊆ recurse p a) (path : Str) :
    ∀ (items : List Str) (acc : Finset Str),
      acc ⊆ scanStep w filters fileName recurse path items acc := by
  intro items
  induction items with
  | nil => intro acc; simp [scanStep]
  | cons item rest ih =>
    intro acc
    simp only [scanStep]
    split
    · exact ih acc
    · split
      · exact ih acc
      · split
        · exact Finset.Subset.trans
            (Finset.Subset.trans (Finset.subset_insert _ _) (Hsub _ _)) (ih _)
        · exact Finset.Subset.trans (Finset.subset_insert _ _) (ih _)

theorem scanDir_acc_subset (w : World) (filters : List (Str → Bool))
    (fileName : Str) :
    ∀ (fuel : Nat) (path : Str) (acc : Finset Str),
      acc ⊆ scanDir w filters fileName fuel path acc := by
  intro fuel
  induction fuel with
  | zero => intro path acc; simp [scanDir]
  | succ fuel ih =>
    intro path acc
    simp only [scanDir]
    exact scanStep_acc_subset w filters fileName _ (fun p a => ih p a) path _ acc

theorem scanStep_mono (w : World) (filters : List (Str → Bool))
    (fileName : Str) (recurse : Str → Finset Str → Finset Str)
    (Hmono : ∀ (p : Str) {a b : Finset Str}, a ⊆ b → recurse p a ⊆ recurse p b)
    (path : Str) :
    ∀ (items : List Str) {acc1 acc2 : Finset Str}, acc1 ⊆ acc2 →
      scanStep w filters fileName recurse path items acc1 ⊆
        scanStep w filters fileName recurse path items acc2 := by
  intro items
  induction items with
  | nil => intro a b h; simpa [scanStep] using h
  | cons item rest ih =>
    intro a b h
    simp only [scanStep]
    split
    · exact ih h
    · split
      · exact ih h
      · split
        · exact ih (Hmono _ (Finset.insert_subset_insert _ h))
        · exact ih (Finset.insert_subset_insert _ h)

theorem scanDir_mono (w : World) (filters : List (Str → Bool))
    (fileName : Str) :
    ∀ (fuel : Nat) (path : Str) {a b : Finset Str}, a ⊆ b →
      scanDir w filters fileName fuel path a ⊆
        scanDir w filters fileName fuel path b := by
  intro fuel
  induction fuel with
  | zero => intro path a b h; simpa [scanDir] using h
  | succ fuel ih =>
    intro path a b h
    simp only [scanDir]
    exact scanStep_mono w filters fileName _ (fun p {a b} hab => ih p hab) path _ h

theorem scanStep_shape (w : World) (filters : List (Str → Bool))
    (fileName : Str) (recurse : Str → Finset Str → Finset Str)
    (Hrec : ∀ (p : Str) (a : Finset Str) (q : Str),
      q ∈ recurse p a → q ∈ a ∨ p <+: q) (path : Str) :
    ∀ (items : List Str) (acc : Finset Str) (q : Str),
      q ∈ scanStep w filters fileName recurse path items acc →
        q ∈ acc ∨ ∃ n, n ∈ items ∧ shouldExclude filters n = false ∧
          symSkip w fileName (path ++ n) = false ∧
          (q = path ++ n ∨ (path ++ n ++ ['/']) <+: q) := by
  intro items
  induction items with
  | nil => intro acc q hq; left; simpa [scanStep] using hq
  | cons item rest ih =>
    intro acc q hq
    simp only [scanStep] at hq
    split at hq
    · rcases ih acc q hq with h | ⟨n, hn, h2, h3, h4⟩
      · exact Or.inl h
      · exact Or.inr ⟨n, List.mem_cons_of_mem _ hn, h2, h3, h4⟩
    · next hexcl =>
      split at hq
      · rcases ih acc q hq with h | ⟨n, hn, h2, h3, h4⟩
        · exact Or.inl h
        · exact Or.inr ⟨n, List.mem_cons_of_mem _ hn, h2, h3, h4⟩
      · next hskip =>
        have hexcl' : shouldExclude filters item = false := by
          simpa using hexcl
        have hskip' : symSkip w fileName (path ++ item) = false := by
          simpa using hskip
        split at hq
        · rcases ih _ q hq with h | ⟨n, hn, h2, h3, h4⟩
          · rcases Hrec _ _ _ h with h' | h'
            · rcases Finset.mem_insert.1 h' with h'' | h''
              · refine Or.inr ⟨item, List.mem_cons_self _ _, hexcl', hskip',
                  Or.inr ?_⟩
                rw [h'']
              · exact Or.inl h''
            · exact Or.inr ⟨item, List.mem_cons_self _ _, hexcl', hskip',
                Or.inr h'⟩
          · exact Or.inr ⟨n, List.mem_cons_of_mem _ hn, h2, h3, h4⟩
        · rcases ih _ q hq with h | ⟨n, hn, h2, h3, h4⟩
          · rcases Finset.mem_insert.1 h with h'' | h''
            · exact Or.inr ⟨item, List.mem_cons_self _ _, hexcl', hskip',
                Or.inl h''⟩
            · exact Or.inl h''
          · exact Or.inr ⟨n, List.mem_cons_of_mem _ hn, h2, h3, h4⟩

theorem scanDir_prefix_mem (w : World) (filters : List (Str → Bool))
    (fileName : Str) :
    ∀ (fuel : Nat) (path : Str) (acc : Finset Str) (q : Str),
      q ∈ scanDir w filters fileName fuel path acc → q ∈ acc ∨ path <+: q := by
  intro fuel
  induction fuel with
  | zero => intro path acc q hq; left; simpa [scanDir] using hq
  | succ fuel ih =>
    intro path acc q hq
    simp only [scanDir] at hq
    rcases scanStep_shape w filters fileName _ (fun p a q h => ih p a q h)
        path _ acc q hq with h | ⟨n, _, _, _, h4⟩
    · exact Or.inl h
    · right
      rcases h4 with h4 | h4
      · rw [h4]; exact List.prefix_append _ _
      · have hp : path <+: path ++ n ++ ['/'] := by
          rw [List.append_assoc]
          exact List.prefix_append _ _
        exact hp.trans h4

theorem sep_free_append_sep_inj :
    ∀ {n m : Str}, '/' ∉ n → '/' ∉ m → n ++ ['/'] <+: m ++ ['/'] → n = m := by
  intro n
  induction n with
  | nil =>
    intro m hn hm h
    cases m with
    | nil => rfl
    | cons b m' =>
      exfalso
      simp only [List.nil_append, List.cons_append] at h
      rcases List.cons_prefix_cons.1 h with ⟨hb, _⟩
      apply hm
      rw [hb]
      exact List.mem_cons_self _ _
  | cons a n' ih =>
    intro m hn hm h
    cases m with
    | nil =>
      exfalso
      simp only [List.cons_append, List.nil_append] at h
      rcases List.cons_prefix_cons.1 h with ⟨ha, _⟩
      apply hn
      rw [← ha]
      exact List.mem_cons_self _ _
    | cons b m' =>
      simp only [List.cons_append] at h
      rcases List.cons_prefix_cons.1 h with ⟨hab, h2⟩
      have hn' : '/' ∉ n' := fun hx => hn (List.mem_cons_of_mem _ hx)
      have hm' : '/' ∉ m' := fun hx => hm (List.mem_cons_of_mem _ hx)
      rw [hab, ih hn' hm' h2]

theorem sep_free_no_sep_pre {n m : Str} (hm : '/' ∉ m) :
    ¬ (n ++ ['/'] <+: m) := by
  intro h
  exact hm (h.subset (by simp))

theorem scanDir_not_produced (w : World) (filters : List (Str → Bool))
    (fileName : Str)
    (hnames : ∀ p n, n ∈ w.listdir p → '/' ∉ n)
    (fuel : Nat) (path : Str) (acc : Finset Str) (item : Str)
    (hitem : item ∈ w.listdir path)
    (hbad : shouldExclude filters item = true ∨
      symSkip w fileName (path ++ item) = true)
    (h1 : path ++ item ∉ acc) (h2 : path ++ item ++ ['/'] ∉ acc) :
    path ++ item ∉ scanDir w filters fileName (fuel + 1) path acc ∧
      path ++ item ++ ['/'] ∉ scanDir w filters fileName (fuel + 1) path acc := by
  constructor
  · intro hq
    simp only [scanDir] at hq
    rcases scanStep_shape w filters fileName _
        (fun p a q h => scanDir_prefix_mem w filters fileName fuel p a q h)
        path _ acc _ hq with h | ⟨n, hn, hex, hsk, h4⟩
    · exact h1 h
    · rcases h4 with h4 | h4
      · have hin : item = n := List.append_cancel_left h4
        rcases hbad with hb | hb
        · rw [hin] at hb; simp [hb] at hex
        · rw [hin] at hb; simp [hb] at hsk
      · have h5 : n ++ ['/'] <+: item := by
          rw [List.append_assoc] at h4
          exact (List.prefix_append_right_inj path).1 h4
        exact sep_free_no_sep_pre (hnames path item hitem) h5
  · intro hq
    simp only [scanDir] at hq
    rcases scanStep_shape w filters fileName _
        (fun p a q h => scanDir_prefix_mem w filters fileName fuel p a q h)
        path _ acc _ hq with h | ⟨n, hn, hex, hsk, h4⟩
    · exact h2 h
    · rcases h4 with h4 | h4
      · rw [List.append_assoc] at h4
        have hin : item ++ ['/'] = n := List.append_cancel_left h4
        apply hnames path n hn
        rw [← hin]
        simp
      · rw [List.append_assoc, List.append_assoc] at h4
        have h5 : n ++ ['/'] <+: item ++ ['/'] :=
          (List.prefix_append_right_inj path).1 h4
        have hin : n = item :=
          sep_free_append_sep_inj (hnames path n hn) (hnames path item hitem) h5
        rcases hbad with hb | hb
        · rw [← hin] at hb; simp [hb] at hex
        · rw [← hin] at hb; simp [hb] at hsk

theorem scanStep_reach (w : World) (filters : List (Str → Bool))
    (fileName : Str) (recurse : Str → Finset Str → Finset Str)
    (Hsub : ∀ p a, a ⊆ recurse p a)
    (Hmono : ∀ (p : Str) {a b : Finset Str}, a ⊆ b → recurse p a ⊆ recurse p b)
    (path : Str) :
    ∀ (items : List Str) (acc : Finset Str) (item : Str), item ∈ items →
      shouldExclude filters item = false →
      symSkip w fileName (path ++ item) = false →
      ((w.isdir (path ++ item) = true →
        path ++ item ++ ['/'] ∈
          scanStep w filters fileName recurse path items acc ∧
        recurse (path ++ item ++ ['/']) ∅ ⊆
          scanStep w filters fileName recurse path items acc) ∧
      (w.isdir (path ++ item) = false →
        path ++ item ∈ scanStep w filters fileName recurse path items acc)) := by
  intro items
  induction items with
  | nil => intro acc item h; cases h
  | cons a rest ih =>
    intro acc item hmem hex hsk
    rcases List.mem_cons.1 hmem with rfl | hmem
    · constructor
      · intro hdir
        simp only [scanStep, hex, hsk, hdir]
        simp only [Bool.false_eq_true, if_false, if_true]
        constructor
        · exact scanStep_acc_subset w filters fileName recurse Hsub path rest _
            (Hsub _ _ (Finset.mem_insert_self _ _))
        · intro x hx
          exact scanStep_acc_subset w filters fileName recurse Hsub path rest _
            (Hmono _ (Finset.empty_subset _) hx)
      · intro hdir
        simp only [scanStep, hex, hsk, hdir]
        simp only [Bool.false_eq_true, if_false]
        exact scanStep_acc_subset w filters fileName recurse Hsub path rest _
          (Finset.mem_insert_self _ _)
    · simp only [scanStep]
      split
      · exact ih acc item hmem hex hsk
      · split
        · exact ih acc item hmem hex hsk
        · split
          · exact ih _ item hmem hex hsk
          · exact ih _ item hmem hex hsk

/-! ### Claims C1, C2, C6, C7, C10 -/

/-- Claim C1, counterexample: in the recent-files list state `["a", "a"]`
(which contains a duplicate), `addRecentFile "a"` hits the already-present
branch but the resulting list still contains a duplicate, so the claim's
"leaves the list without duplicates" fails for this state. -/
theorem addRecentFile_dup_counterexample :
    (['a'] ∈ ([['a'], ['a']] : List Str)) ∧
      ¬ (Codimension.addRecentFile 5 [['a'], ['a']] ['a']).1.Nodup := by
  decide

/-- Claim C1 (amended): for every duplicate-free recent-files list state and
every path, calling `addRecentFile` with a path already in the list moves it
to the front, keeps the list duplicate-free and keeps its length; with a path
not in the list the result is the path inserted at the front, truncated to
the configured limit. -/
theorem addRecentFile_spec (limit : Nat) (l : List Str) (p : Str)
    (h : l.Nodup) :
    (p ∈ l →
      (addRecentFile limit l p).1.head? = some p ∧
        (addRecentFile limit l p).1.Nodup ∧
        (addRecentFile limit l p).1.length = l.length) ∧
    (p ∉ l → (addRecentFile limit l p).1 = (p :: l).take limit) := by
  constructor
  · intro hp
    refine ⟨?_, ?_, addRecentFile_length_mem hp⟩
    · simp [addRecentFile, hp]
    · have h1 : (l.erase p).Nodup := List.Nodup.erase p h
      have h2 : p ∉ l.erase p := List.Nodup.not_mem_erase h
      simp [addRecentFile, hp, List.nodup_cons, h1, h2]
  · intro hp
    unfold addRecentFile
    rw [if_neg hp]
    dsimp only
    split
    · rfl
    · next hlen =>
      push_neg at hlen
      exact (List.take_of_length_le hlen).symm

/-- Claim C1 witness: all hypotheses of `addRecentFile_spec` hold at the
concrete state `["a", "b"]` with path `"a"`, and the in-list conclusions
follow from the theorem. -/
theorem addRecentFile_spec_witness :
    ([['a'], ['b']] : List Str).Nodup ∧ (['a'] ∈ ([['a'], ['b']] : List Str)) ∧
      ((Codimension.addRecentFile 5 [['a'], ['b']] ['a']).1.head? = some ['a'] ∧
        (Codimension.addRecentFile 5 [['a'], ['b']] ['a']).1.Nodup ∧
        (Codimension.addRecentFile 5 [['a'], ['b']] ['a']).1.length =
          ([['a'], ['b']] : List Str).length) :=
  ⟨by decide, by decide,
    (addRecentFile_spec 5 [['a'], ['b']] ['a'] (by decide)).1 (by decide)⟩

/-- Claim C2, counterexample: the `recentFiles` setter is a raw assignment,
so from a state satisfying the bound (the empty list, limit 1) it can
produce a list longer than the limit. -/
theorem setRecentFiles_bound_counterexample :
    (([] : List Str).length ≤ 1) ∧
      ¬ ((Codimension.setRecentFiles [] [['a'], ['b']]).length ≤ 1) := by
  decide

/-- Claim C2 (amended): starting from any recent-files state within the
configured limit, `addRecentFile` and `removeRecentFile` keep the list
within the limit for every input; the `recentFiles` setter stays within the
limit only when the assigned list itself is within the limit. -/
theorem recentFiles_bound (limit : Nat) (l : List Str) (p : Str)
    (files : List Str) (h : l.length ≤ limit) :
    (addRecentFile limit l p).1.length ≤ limit ∧
      (removeRecentFile l p).length ≤ limit ∧
      (files.length ≤ limit → (setRecentFiles l files).length ≤ limit) := by
  refine ⟨?_, ?_, fun hf => hf⟩
  · by_cases hp : p ∈ l
    · rw [addRecentFile_length_mem hp]; exact h
    · unfold addRecentFile
      rw [if_neg hp]
      dsimp only
      split
      · simp only [List.length_take]
        omega
      · next hlen =>
        push_neg at hlen
        simpa using hlen
  · unfold removeRecentFile
    by_cases hp : p ∈ l
    · simp only [hp, if_pos]
      have := List.length_erase_of_mem hp
      omega
    · simpa [hp] using h

/-- Claim C2 witness: concrete instance of `recentFiles_bound` at state
`["a"]`, limit 1, with input path `"b"` and setter input `["c"]`. -/
theorem recentFiles_bound_witness :
    (([['a']] : List Str).length ≤ 1) ∧
      ((Codimension.addRecentFile 1 [['a']] ['b']).1.length ≤ 1 ∧
        (Codimension.removeRecentFile [['a']] ['b']).length ≤ 1 ∧
        (([['c']] : List Str).length ≤ 1 →
          (Codimension.setRecentFiles [['a']] [['c']]).length ≤ 1)) :=
  ⟨by decide, recentFiles_bound 1 [['a']] ['b'] [['c']] (by decide)⟩

/-- Claim C6, counterexample: on the state `["a/", "a/"]` (duplicate entry)
`removeTopLevelDir "a"` removes only the first occurrence, so applying the
operation twice does not yield the same list as applying it once. -/
theorem removeTopLevelDir_idem_counterexample :
    ¬ (Codimension.removeTopLevelDir
          (Codimension.removeTopLevelDir [['a', '/'], ['a', '/']] ['a']) ['a'] =
        Codimension.removeTopLevelDir [['a', '/'], ['a', '/']] ['a']) := by
  decide

/-- Claim C6 (amended): `addTopLevelDir` is idempotent on every state;
`removeTopLevelDir` is idempotent on every duplicate-free state; and both
normalize their argument by appending a trailing separator when missing, so
a path with or without the trailing separator is treated the same. -/
theorem topLevelDir_idem_norm (l : List Str) (p : Str) :
    addTopLevelDir (addTopLevelDir l p) p = addTopLevelDir l p ∧
      (l.Nodup →
        removeTopLevelDir (removeTopLevelDir l p) p = removeTopLevelDir l p) ∧
      addTopLevelDir l p = addTopLevelDir l (ensureSep p) ∧
      removeTopLevelDir l p = removeTopLevelDir l (ensureSep p) := by
  refine ⟨?_, ?_, ?_, ?_⟩
  · unfold addTopLevelDir
    by_cases hq : ensureSep p ∈ l
    · simp [hq]
    · simp [hq]
  · intro h
    unfold removeTopLevelDir
    by_cases hq : ensureSep p ∈ l
    · have : ensureSep p ∉ l.erase (ensureSep p) := List.Nodup.not_mem_erase h
      simp [hq, this]
    · simp [hq]
  · unfold addTopLevelDir
    rw [ensureSep_idem]
  · unfold removeTopLevelDir
    rw [ensureSep_idem]

/-- Claim C6 witness: concrete instance of `topLevelDir_idem_norm` at the
duplicate-free state `["b/"]` with path `"a"`. -/
theorem topLevelDir_idem_norm_witness :
    ([['b', '/']] : List Str).Nodup ∧
      (Codimension.addTopLevelDir
          (Codimension.addTopLevelDir [['b', '/']] ['a']) ['a'] =
        Codimension.addTopLevelDir [['b', '/']] ['a'] ∧
      Codimension.removeTopLevelDir
          (Codimension.removeTopLevelDir [['b', '/']] ['a']) ['a'] =
        Codimension.removeTopLevelDir [['b', '/']] ['a'] ∧
      Codimension.addTopLevelDir [['b', '/']] ['a'] =
        Codimension.addTopLevelDir [['b', '/']] (Codimension.ensureSep ['a']) ∧
      Codimension.removeTopLevelDir [['b', '/']] ['a'] =
        Codimension.removeTopLevelDir [['b', '/']]
          (Codimension.ensureSep ['a'])) :=
  ⟨by decide,
    (topLevelDir_idem_norm [['b', '/']] ['a']).1,
    (topLevelDir_idem_norm [['b', '/']] ['a']).2.1 (by decide),
    (topLevelDir_idem_norm [['b', '/']] ['a']).2.2⟩

/-- Claim C7, counterexample: the `topLevelDirs` setter is a raw assignment,
so from a state satisfying the trailing-separator invariant (the empty list)
it can store an entry without a trailing separator. -/
theorem setTopLevelDirs_sep_counterexample :
    (∀ x ∈ ([] : List Str), Codimension.endsSep x = true) ∧
      ¬ (∀ x ∈ Codimension.setTopLevelDirs [] [['a']],
            Codimension.endsSep x = true) := by
  decide

/-- Claim C7 (amended): starting from any top-level-dirs state whose entries
all end with the separator, `addTopLevelDir` and `removeTopLevelDir`
preserve that invariant for every input; the `topLevelDirs` setter preserves
it only when every entry of the assigned list ends with the separator. -/
theorem topLevelDirs_sep_invariant (l : List Str) (p : Str)
    (newDirs : List Str) (h : ∀ x ∈ l, endsSep x = true) :
    (∀ x ∈ addTopLevelDir l p, endsSep x = true) ∧
      (∀ x ∈ removeTopLevelDir l p, endsSep x = true) ∧
      ((∀ x ∈ newDirs, endsSep x = true) →
        ∀ x ∈ setTopLevelDirs l newDirs, endsSep x = true) := by
  refine ⟨?_, ?_, fun hn => hn⟩
  · intro x hx
    unfold addTopLevelDir at hx
    dsimp only at hx
    by_cases hq : ensureSep p ∈ l
    · rw [if_pos hq] at hx
      exact h x hx
    · rw [if_neg hq] at hx
      rcases List.mem_append.1 hx with hx | hx
      · exact h x hx
      · rw [List.mem_singleton.1 hx]
        exact endsSep_ensureSep p
  · intro x hx
    unfold removeTopLevelDir at hx
    dsimp only at hx
    by_cases hq : ensureSep p ∈ l
    · rw [if_pos hq] at hx
      exact h x (List.erase_subset _ _ hx)
    · rw [if_neg hq] at hx
      exact h x hx

/-- Claim C7 witness: concrete instance of `topLevelDirs_sep_invariant` at
the state `["b/"]` with path `"a"` and setter input `["c/"]`. -/
theorem topLevelDirs_sep_invariant_witness :
    (∀ x ∈ ([['b', '/']] : List Str), Codimension.endsSep x = true) ∧
      ((∀ x ∈ Codimension.addTopLevelDir [['b', '/']] ['a'],
          Codimension.endsSep x = true) ∧
        (∀ x ∈ Codimension.removeTopLevelDir [['b', '/']] ['a'],
          Codimension.endsSep x = true) ∧
        ((∀ x ∈ ([['c', '/']] : List Str), Codimension.endsSep x = true) →
          ∀ x ∈ Codimension.setTopLevelDirs [['b', '/']] [['c', '/']],
            Codimension.endsSep x = true)) :=
  ⟨by decide, topLevelDirs_sep_invariant [['b', '/']] ['a'] [['c', '/']]
    (by decide)⟩

/-- Claim C3, counterexample: a token without the `'+'` prefix that carries
the full path `"ab"` does not remove `"ab"` from the file list — the code
removes `item[1:]`, i.e. `"b"`, so `"ab"` survives, contrary to the claim. -/
theorem onFSChanged_remove_counterexample :
    (¬ (['a', 'b'] : Str).take 1 = ['+']) ∧
      ['a', 'b'] ∈ Codimension.onFSChanged {['a', 'b']} [['a', 'b']] := by
  decide

/-- Claim C3 (amended): `onFSChanged` handles the token list sequentially;
a token `'+' ++ p` adds `p` to the file list, and a token without the `'+'`
prefix removes the token minus its leading character (the watcher marks
removals with a one-character prefix) from the file list. -/
theorem onFSChanged_spec (fl : Finset Str) (item : Str) (more : List Str) :
    (onFSChanged fl (('+' :: item) :: more) =
        onFSChanged (insert item fl) more) ∧
      (item.take 1 ≠ ['+'] →
        onFSChanged fl (item :: more) =
          onFSChanged (fl.erase (item.drop 1)) more) := by
  constructor
  · simp [onFSChanged, onFSChangedStep]
  · intro h
    simp [onFSChanged, onFSChangedStep, h]

/-- Claim C3 witness: concrete instance of `onFSChanged_spec` processing the
removal token `"-a"` on the file list `{"a"}`. -/
theorem onFSChanged_spec_witness :
    ((['-', 'a'] : Str).take 1 ≠ ['+']) ∧
      Codimension.onFSChanged {(['a'] : Str)} [['-', 'a']] =
        Codimension.onFSChanged
          ((({(['a'] : Str)}) : Finset Str).erase ((['-', 'a'] : Str).drop 1))
          [] :=
  ⟨by decide,
    (onFSChanged_spec {(['a'] : Str)} ['-', 'a'] []).2 (by decide)⟩

/-- Claim C4: for every directory entry encountered by the recursive scan
(an `item` of `os.listdir(path)` at any recursion state `path`, `acc`,
`fuel`): if the entry name matches an exclude filter, neither the entry's
path nor its directory form appears in the scan result; if it is a symlink
resolving inside the project tree, likewise; otherwise a directory is added
with a trailing separator and the scan recurses into it, and a non-directory
is added as is.  The side conditions say that `os.listdir` names contain no
separator and that the entry was not already in the accumulated set. -/
theorem scanDir_entry_spec (w : World) (filters : List (Str → Bool))
    (fileName : Str)
    (hnames : ∀ p n, n ∈ w.listdir p → '/' ∉ n)
    (fuel : Nat) (path : Str) (acc : Finset Str) (item : Str)
    (hitem : item ∈ w.listdir path)
    (h1 : path ++ item ∉ acc) (h2 : path ++ item ++ ['/'] ∉ acc) :
    (shouldExclude filters item = true →
        path ++ item ∉ scanDir w filters fileName (fuel + 1) path acc ∧
        path ++ item ++ ['/'] ∉
          scanDir w filters fileName (fuel + 1) path acc) ∧
    (shouldExclude filters item = false →
      symSkip w fileName (path ++ item) = true →
        path ++ item ∉ scanDir w filters fileName (fuel + 1) path acc ∧
        path ++ item ++ ['/'] ∉
          scanDir w filters fileName (fuel + 1) path acc) ∧
    (shouldExclude filters item = false →
      symSkip w fileName (path ++ item) = false →
        (w.isdir (path ++ item) = true →
          path ++ item ++ ['/'] ∈
            scanDir w filters fileName (fuel + 1) path acc ∧
          scanDir w filters fileName fuel (path ++ item ++ ['/']) ∅ ⊆
            scanDir w filters fileName (fuel + 1) path acc) ∧
        (w.isdir (path ++ item) = false →
          path ++ item ∈ scanDir w filters fileName (fuel + 1) path acc)) := by
  refine ⟨?_, ?_, ?_⟩
  · intro hex
    exact scanDir_not_produced w filters fileName hnames fuel path acc item
      hitem (Or.inl hex) h1 h2
  · intro _ hsk
    exact scanDir_not_produced w filters fileName hnames fuel path acc item
      hitem (Or.inr hsk) h1 h2
  · intro hex hsk
    have h := scanStep_reach w filters fileName
      (fun p a => scanDir w filters fileName fuel p a)
      (fun p a => scanDir_acc_subset w filters fileName fuel p a)
      (fun p {a b} hab => scanDir_mono w filters fileName fuel p hab)
      path (w.listdir path) acc item hitem hex hsk
    simpa only [scanDir] using h

theorem wit0_listdir_names : ∀ p n, n ∈ wit0.listdir p → '/' ∉ n := by
  intro p n h
  simp only [wit0, wit0listdir] at h
  split at h
  · simp only [List.mem_singleton] at h
    subst h
    decide
  · simp at h

/-- Claim C4 witness: concrete instance of `scanDir_entry_spec` on `wit0`:
the non-excluded, non-symlink file entry `"a"` of `"/r/"` ends up in the
scan result. -/
theorem scanDir_entry_spec_witness :
    (∀ p n, n ∈ Codimension.wit0.listdir p → '/' ∉ n) ∧
      (['a'] ∈ Codimension.wit0.listdir ['/', 'r', '/']) ∧
      ((['/', 'r', '/'] ++ ['a'] : Str) ∉ (∅ : Finset Str)) ∧
      ((['/', 'r', '/'] ++ ['a'] ++ ['/'] : Str) ∉ (∅ : Finset Str)) ∧
      Codimension.shouldExclude [] ['a'] = false ∧
      Codimension.symSkip Codimension.wit0 [] (['/', 'r', '/'] ++ ['a']) =
        false ∧
      Codimension.wit0.isdir (['/', 'r', '/'] ++ ['a']) = false ∧
      (['/', 'r', '/'] ++ ['a'] : Str) ∈
        Codimension.scanDir Codimension.wit0 [] [] 1 ['/', 'r', '/'] ∅ :=
  ⟨wit0_listdir_names, by decide, by decide, by decide, by decide, by decide,
    by decide,
    ((Codimension.scanDir_entry_spec wit0 [] [] wit0_listdir_names 0
        ['/', 'r', '/'] ∅ ['a'] (by decide) (by decide) (by decide)).2.2
      (by decide) (by decide)).2 (by decide)⟩

/-- Claim C10: `addRecentFile` returns `True` iff the path was not in the
list before the call; when it returns `False` the list length is unchanged
and the path is at the front; and `CodimensionProject.addRecentFile` emits
`recentFilesChanged` iff the result is `True`. -/
theorem addRecentFile_result (limit : Nat) (l : List Str) (p : Str) :
    ((addRecentFile limit l p).2 = true ↔ p ∉ l) ∧
      ((addRecentFile limit l p).2 = false →
        (addRecentFile limit l p).1.length = l.length ∧
          (addRecentFile limit l p).1.head? = some p) ∧
      ((projAddRecentFile limit l p).2 = [Sig.recentFilesChanged] ↔
        (addRecentFile limit l p).2 = true) := by
  refine ⟨?_, ?_, ?_⟩
  · by_cases hp : p ∈ l
    · simp [addRecentFile, hp]
    · unfold addRecentFile
      rw [if_neg hp]
      dsimp only
      split <;> simp [hp]
  · intro hret
    by_cases hp : p ∈ l
    · exact ⟨addRecentFile_length_mem hp, by simp [addRecentFile, hp]⟩
    · exfalso
      unfold addRecentFile at hret
      rw [if_neg hp] at hret
      dsimp only at hret
      split at hret <;> simp at hret
  · unfold projAddRecentFile
    by_cases hr : (addRecentFile limit l p).2 = true
    · simp [hr]
    · simp only [Bool.not_eq_true] at hr
      simp [hr]

/-- Claim C10 witness: concrete instance of `addRecentFile_result` at the
state `["a"]` with path `"a"` (the returns-`False` branch), discharging the
inner implication at that input. -/
theorem addRecentFile_result_witness :
    ((Codimension.addRecentFile 5 [['a']] ['a']).2 = true ↔
        ['a'] ∉ ([['a']] : List Str)) ∧
      ((Codimension.addRecentFile 5 [['a']] ['a']).2 = false) ∧
      ((Codimension.addRecentFile 5 [['a']] ['a']).1.length =
          ([['a']] : List Str).length ∧
        (Codimension.addRecentFile 5 [['a']] ['a']).1.head? = some ['a']) ∧
      ((Codimension.projAddRecentFile 5 [['a']] ['a']).2 =
          [Codimension.Sig.recentFilesChanged] ↔
        (Codimension.addRecentFile 5 [['a']] ['a']).2 = true) :=
  ⟨(addRecentFile_result 5 [['a']] ['a']).1, by decide,
    (addRecentFile_result 5 [['a']] ['a']).2.1 (by decide),
    (addRecentFile_result 5 [['a']] ['a']).2.2⟩

/-! ### Claims C5, C8, C9 -/

/-- Claim C5: `loadProject` raises when the given project file path does
not exist, and raises when it exists but its (realpath-resolved) name does
not end with the `.cdm3` extension — with the exception messages of
project.py lines 246-250. -/
theorem loadProject_raises (w : World) (filters : List (Str → Bool))
    (st : PState) (f : Str) :
    (w.pathExists (w.realpath f) = false →
      (loadProject w filters st f).1 =
        Except.error ("Cannot open project file ".data ++ f)) ∧
    (w.pathExists (w.realpath f) = true →
      ".cdm3".data.isSuffixOf (w.realpath f) = false →
      (loadProject w filters st f).1 =
        Except.error "Unexpected project file extension. Expected: .cdm3".data) := by
  constructor
  · intro h
    simp [loadProject, h]
  · intro h1 h2
    simp [loadProject, h1, h2]

/-- Claim C5 witness: concrete instances of `loadProject_raises`: in
`witNoFile` the file `"p"` does not exist and loading errors; in `wit0`
the file `"p"` exists, lacks the `.cdm3` suffix, and loading errors. -/
theorem loadProject_raises_witness :
    (Codimension.witNoFile.pathExists (Codimension.witNoFile.realpath ['p']) =
        false ∧
      (Codimension.loadProject Codimension.witNoFile [] Codimension.pstate0
          ['p']).1 =
        Except.error ("Cannot open project file ".data ++ ['p'])) ∧
    (Codimension.wit0.pathExists (Codimension.wit0.realpath ['p']) = true ∧
      ".cdm3".data.isSuffixOf (Codimension.wit0.realpath ['p']) = false ∧
      (Codimension.loadProject Codimension.wit0 [] Codimension.pstate0
          ['p']).1 =
        Except.error
          "Unexpected project file extension. Expected: .cdm3".data) :=
  ⟨⟨by decide,
      (loadProject_raises witNoFile [] pstate0 ['p']).1 (by decide)⟩,
    ⟨by decide, by decide,
      (loadProject_raises wit0 [] pstate0 ['p']).2 (by decide) (by decide)⟩⟩

/-- Claim C9: when `loadProject` fails one of its three early checks —
missing file, wrong extension, or unparseable JSON — it raises and the
project object's state (file name, properties, files list, user project
dir, environment stores) is exactly as before the call. -/
theorem loadProject_error_atomic (w : World) (filters : List (Str → Bool))
    (st : PState) (f : Str)
    (hfail : w.pathExists (w.realpath f) = false ∨
      (w.pathExists (w.realpath f) = true ∧
        ".cdm3".data.isSuffixOf (w.realpath f) = false) ∨
      (w.pathExists (w.realpath f) = true ∧
        ".cdm3".data.isSuffixOf (w.realpath f) = true ∧
        w.parseProps (w.readFile (w.realpath f)) = none)) :
    (∃ e, (loadProject w filters st f).1 = Except.error e) ∧
      (loadProject w filters st f).2 = st := by
  rcases hfail with h | ⟨h1, h2⟩ | ⟨h1, h2, h3⟩
  · refine ⟨⟨"Cannot open project file ".data ++ f, ?_⟩, ?_⟩ <;>
      simp [loadProject, h]
  · refine ⟨⟨"Unexpected project file extension. Expected: .cdm3".data, ?_⟩,
      ?_⟩ <;> simp [loadProject, h1, h2]
  · refine ⟨⟨"Bad project file ".data ++ f, ?_⟩, ?_⟩ <;>
      simp [loadProject, h1, h2, h3]

/-- Claim C9 witness: concrete instance of `loadProject_error_atomic` in
`witNoFile` (missing file): loading errors and leaves `pstate0` intact. -/
theorem loadProject_error_atomic_witness :
    (Codimension.witNoFile.pathExists (Codimension.witNoFile.realpath ['p']) =
        false) ∧
      ((∃ e, (Codimension.loadProject Codimension.witNoFile []
          Codimension.pstate0 ['p']).1 = Except.error e) ∧
        (Codimension.loadProject Codimension.witNoFile []
          Codimension.pstate0 ['p']).2 = Codimension.pstate0) :=
  ⟨by decide,
    loadProject_error_atomic witNoFile [] pstate0 ['p'] (Or.inl (by decide))⟩

/-- Claim C8, counterexample: the project-properties store is JSON-backed,
yet `getProjectProperties` on a missing file raises instead of returning a
default property set — in `witNoFile`, loading `"p.cdm3"` errors. -/
theorem getProjectProperties_missing_counterexample :
    Codimension.getProjectProperties Codimension.witNoFile
        ['p', '.', 'c', 'd', 'm', '3'] =
      Except.error
        ("Cannot find project file ".data ++ ['p', '.', 'c', 'd', 'm', '3']) := by
  rfl

/-- Claim C8 (amended): a missing or corrupt `fsenv.json` loads as the
default property set without raising (via `loadJSON`, modelled from the
spec); `getProjectProperties` falls back to the empty property set with
logging only when the project file exists but is corrupt, and raises when
the file is missing. -/
theorem jsonLoad_fallback (w : World) (fn f : Str) (p0 : FsProps) :
    ((w.pathExists fn = false ∨ w.parseFsProps (w.readFile fn) = none) →
      (fsLoad w ⟨p0, some fn⟩).props = defaultFsProps) ∧
    (w.pathExists (w.realpath f) = true →
      w.parseProps (w.readFile (w.realpath f)) = none →
      getProjectProperties w f = Except.ok emptyProps) ∧
    (w.pathExists (w.realpath f) = false →
      getProjectProperties w f =
        Except.error ("Cannot find project file ".data ++ f)) := by
  refine ⟨?_, ?_, ?_⟩
  · intro h
    rcases h with h | h
    · simp [fsLoad, loadJSON, h]
    · by_cases he : w.pathExists fn = true
      · simp [fsLoad, loadJSON, he, h]
      · simp only [Bool.not_eq_true] at he
        simp [fsLoad, loadJSON, he]
  · intro h1 h2
    simp [getProjectProperties, h1, h2]
  · intro h
    simp [getProjectProperties, h]

/-- Claim C8 witness: concrete instances of `jsonLoad_fallback`: in
`witNoFile` a missing `fsenv.json` loads as the defaults, and in `wit0`
(file exists, parse fails) `getProjectProperties` returns `{}`. -/
theorem jsonLoad_fallback_witness :
    (Codimension.witNoFile.pathExists ['x'] = false ∧
      (Codimension.fsLoad Codimension.witNoFile
          ⟨Codimension.defaultFsProps, some ['x']⟩).props =
        Codimension.defaultFsProps) ∧
    (Codimension.wit0.pathExists (Codimension.wit0.realpath ['p']) = true ∧
      Codimension.wit0.parseProps
          (Codimension.wit0.readFile (Codimension.wit0.realpath ['p'])) =
        none ∧
      Codimension.getProjectProperties Codimension.wit0 ['p'] =
        Except.ok Codimension.emptyProps) :=
  ⟨⟨by decide,
      (jsonLoad_fallback witNoFile ['x'] ['p'] defaultFsProps).1
        (Or.inl (by decide))⟩,
    ⟨by decide, by decide,
      (jsonLoad_fallback wit0 ['x'] ['p'] defaultFsProps).2.1
        (by decide) (by decide)⟩⟩

end Codimension
